import Mathlib

/-!
Shallow embedding of the RMR (Rock Mass Rating) scoring and discontinuity
family-clustering core of `src/app.py`, together with theorems settling the
specification claims.  Numeric columns are modelled over `ℚ`; the RQD
estimator, which uses the exponential function, produces a real number.
-/

namespace RMR

/-- Mean of a numeric column, as pandas computes it for a non-empty column:
sum divided by count.  (On `ℚ`, division by zero yields zero.) -/
def listMean (l : List ℚ) : ℚ := l.sum / l.length

/-- Maximum of a numeric column (`df[col].max()`), `0` for an empty column. -/
def listMax : List ℚ → ℚ
  | [] => 0
  | [x] => x
  | x :: y :: xs => max x (listMax (y :: xs))

/-- Python `int(x)` applied to a rational: truncation toward zero. -/
def pyInt (q : ℚ) : ℤ := if q < 0 then -⌊-q⌋ else ⌊q⌋

/-- One measured discontinuity: one row of the consolidated dataset.
`Spacing_mm`, despite its name, holds a coded category (1–5). -/
structure DiscontinuityRecord where
  Distance_m : ℚ
  Dip_Direction_degrees : Option ℚ
  Spacing_mm : ℚ
  Persistence_m : ℚ
  Aperture_mm : ℚ
  Roughness : ℚ
  Weathering : ℚ
  Infilling_Type : ℚ
  Groundwater : ℚ
deriving DecidableEq

/-- `calculate_rqd_from_frequency`: estimated RQD from discontinuity count and
traverse length; `0` when the length is non-positive, otherwise
`100·e^(−0.1λ)·(0.1λ+1)` clamped into `[0, 100]`. -/
noncomputable def calculate_rqd_from_frequency (num_discontinuities : ℕ)
    (total_length_m : ℚ) : ℝ :=
  if total_length_m ≤ 0 then 0
  else
    max 0 (min 100
      (100 * Real.exp (-0.1 * ((num_discontinuities : ℝ) / (total_length_m : ℝ)))
        * (0.1 * ((num_discontinuities : ℝ) / (total_length_m : ℝ)) + 1)))

/-- `get_rqd_rating`: banded RQD rating. -/
noncomputable def get_rqd_rating (rqd : ℝ) : ℕ :=
  if 90 ≤ rqd then 20
  else if 75 ≤ rqd then 17
  else if 50 ≤ rqd then 13
  else if 25 ≤ rqd then 8
  else 3

/-- `get_spacing_rating`: banded spacing rating on a millimeter value. -/
def get_spacing_rating (spacing_mm : ℚ) : ℕ :=
  if 2000 ≤ spacing_mm then 20
  else if 600 ≤ spacing_mm then 15
  else if 200 ≤ spacing_mm then 10
  else if 60 ≤ spacing_mm then 8
  else 5

/-- `get_discontinuity_condition_rating`: base 30 minus code penalties, clamped
into `[0, 30]`; accepts fractional (mean) codes. -/
def get_discontinuity_condition_rating (aperture_code roughness_code
    weathering_code infilling_code : ℚ) : ℚ :=
  max 0 (min 30
    (30 - (aperture_code - 1) * 2 - (roughness_code - 1) * (3/2)
       - (weathering_code - 1) * 3
       - (if infilling_code ≤ 2 then 0 else if infilling_code = 3 then 5 else 3)))

/-- `get_groundwater_rating`: exact map `{1:15, 2:10, 3:7, 4:4, 5:0}` with
default 7 for every other code (`dict.get(code, 7)`). -/
def get_groundwater_rating (groundwater_code : ℤ) : ℕ :=
  if groundwater_code = 1 then 15
  else if groundwater_code = 2 then 10
  else if groundwater_code = 3 then 7
  else if groundwater_code = 4 then 4
  else if groundwater_code = 5 then 0
  else 7

/-- The `spacing_conversion` dict `{1:10, 2:40, 3:130, 4:400, 5:800}`:
a coded spacing to a real millimeter value, `none` off the table. -/
def spacing_conversion (code : ℚ) : Option ℚ :=
  if code = 1 then some 10
  else if code = 2 then some 40
  else if code = 3 then some 130
  else if code = 4 then some 400
  else if code = 5 then some 800
  else none

/-- Final RMR classification bands (the if/elif chain of
`calculate_station_rmr`). -/
def classify_rmr (rmr_total : ℚ) : String :=
  if 81 ≤ rmr_total then "Clase I - Muy buena"
  else if 61 ≤ rmr_total then "Clase II - Buena"
  else if 41 ≤ rmr_total then "Clase III - Regular"
  else if 21 ≤ rmr_total then "Clase IV - Mala"
  else "Clase V - Muy mala"

/-- The six partial ratings of a station score. -/
structure StationRatings where
  Strength : ℕ
  RQD : ℕ
  Spacing : ℕ
  Conditions : ℚ
  Groundwater : ℕ
  Orientation : ℤ

/-- Result record of `calculate_station_rmr`. -/
structure ScoreResult where
  RMR_Total : ℚ
  Classification : String
  RQD : ℝ
  Spacing_mm : ℚ
  Num_Discontinuities : ℕ
  Total_Length : ℚ
  Ratings : StationRatings

/-- `calculate_station_rmr` on the rows of one station.  Spacing codes are
mapped through `spacing_conversion` (codes off the table become missing values,
which the pandas mean skips — hence `filterMap`); the groundwater rating is
taken at `int(mean)`, i.e. the mean truncated toward zero. -/
noncomputable def calculate_station_rmr (records : List DiscontinuityRecord) :
    ScoreResult :=
  let num_discontinuities := records.length
  let total_length := listMax (records.map (·.Distance_m))
  let rqd := calculate_rqd_from_frequency num_discontinuities total_length
  let spacing_avg := listMean (records.filterMap (fun r => spacing_conversion r.Spacing_mm))
  let rating_strength : ℕ := 7
  let rating_rqd := get_rqd_rating rqd
  let rating_spacing := get_spacing_rating spacing_avg
  let rating_conditions := get_discontinuity_condition_rating
    (listMean (records.map (·.Aperture_mm)))
    (listMean (records.map (·.Roughness)))
    (listMean (records.map (·.Weathering)))
    (listMean (records.map (·.Infilling_Type)))
  let rating_groundwater := get_groundwater_rating
    (pyInt (listMean (records.map (·.Groundwater))))
  let orientation_adjustment : ℤ := -5
  let rmr_total : ℚ := (rating_strength : ℚ) + (rating_rqd : ℚ) + (rating_spacing : ℚ)
    + rating_conditions + (rating_groundwater : ℚ) + (orientation_adjustment : ℚ)
  { RMR_Total := rmr_total
    Classification := classify_rmr rmr_total
    RQD := rqd
    Spacing_mm := spacing_avg
    Num_Discontinuities := num_discontinuities
    Total_Length := total_length
    Ratings :=
      { Strength := rating_strength
        RQD := rating_rqd
        Spacing := rating_spacing
        Conditions := rating_conditions
        Groundwater := rating_groundwater
        Orientation := orientation_adjustment } }

/-- Statistical properties of a family's member rows
(`analyze_family_properties`).  The two dip-direction statistics
(mean/standard deviation of `Dip_Direction_degrees`) are presentation-only
outputs not consumed by any scoring routine and are omitted here. -/
structure FamilyProperties where
  Count : ℕ
  Spacing_code_mean : ℚ
  Persistence_code_mean : ℚ
  Aperture_code_mean : ℚ
  Roughness_code_mean : ℚ
  Weathering_code_mean : ℚ
  Infilling_code_mean : ℚ
  Groundwater_code_mean : ℚ

/-- `analyze_family_properties` over a family's member rows. -/
def analyze_family_properties (df_family : List DiscontinuityRecord) :
    FamilyProperties :=
  { Count := df_family.length
    Spacing_code_mean := listMean (df_family.map (·.Spacing_mm))
    Persistence_code_mean := listMean (df_family.map (·.Persistence_m))
    Aperture_code_mean := listMean (df_family.map (·.Aperture_mm))
    Roughness_code_mean := listMean (df_family.map (·.Roughness))
    Weathering_code_mean := listMean (df_family.map (·.Weathering))
    Infilling_code_mean := listMean (df_family.map (·.Infilling_Type))
    Groundwater_code_mean := listMean (df_family.map (·.Groundwater)) }

/-- The five partial ratings recorded for a family score. -/
structure FamilyRatings where
  strength : ℕ
  rqd : ℕ
  spacing : ℕ
  conditions : ℚ
  groundwater : ℕ

/-- Result record of `calculate_family_rmr`. -/
structure FamilyScore where
  RMR_total : ℚ
  RQD_family : ℝ
  Spacing_mm : ℚ
  ratings : FamilyRatings

/-- `calculate_family_rmr`: RMR of one family from its mean properties and the
parent station's length.  The spacing millimeter value is
`spacing_conversion.get(int(Spacing_code_mean), 130)` — a dictionary lookup on
the truncated mean code, with default 130. -/
noncomputable def calculate_family_rmr (family_properties : FamilyProperties)
    (station_length : ℚ) : FamilyScore :=
  let rating_strength : ℕ := 7
  let family_rqd := calculate_rqd_from_frequency family_properties.Count station_length
  let rating_rqd := get_rqd_rating family_rqd
  let spacing_mm := (spacing_conversion ((pyInt family_properties.Spacing_code_mean : ℤ) : ℚ)).getD 130
  let rating_spacing := get_spacing_rating spacing_mm
  let rating_conditions := get_discontinuity_condition_rating
    family_properties.Aperture_code_mean
    family_properties.Roughness_code_mean
    family_properties.Weathering_code_mean
    family_properties.Infilling_code_mean
  let rating_groundwater := get_groundwater_rating
    (pyInt family_properties.Groundwater_code_mean)
  let orientation_adjustment : ℤ := -5
  let rmr_total : ℚ := (rating_strength : ℚ) + (rating_rqd : ℚ) + (rating_spacing : ℚ)
    + rating_conditions + (rating_groundwater : ℚ) + (orientation_adjustment : ℚ)
  { RMR_total := rmr_total
    RQD_family := family_rqd
    Spacing_mm := spacing_mm
    ratings :=
      { strength := rating_strength
        rqd := rating_rqd
        spacing := rating_spacing
        conditions := rating_conditions
        groundwater := rating_groundwater } }

/-- `calculate_angular_distance`: circular (mod-360°) distance between two
dip directions, `min(|a−b|, 360−|a−b|)`. -/
def calculate_angular_distance (dip_dir1 dip_dir2 : ℚ) : ℚ :=
  min |dip_dir1 - dip_dir2| (360 - |dip_dir1 - dip_dir2|)

/-- The inner `for j in range(i+1, n)` loop of `identify_families`: scan the
later indices `js`, adding `j` to the current family (and to the visited set)
whenever the mean circular distance from `j` to the current members is within
tolerance.  Returns the finished family and the updated visited set. -/
def familyScanAux (orientations : List ℚ) (tolerance : ℚ) :
    List ℕ → List ℕ → List ℕ → List ℕ × List ℕ
  | [], visited, current_family => (current_family, visited)
  | j :: js, visited, current_family =>
    if j ∈ visited then familyScanAux orientations tolerance js visited current_family
    else if listMean (current_family.map (fun k =>
        calculate_angular_distance (orientations.getD k 0) (orientations.getD j 0)))
        ≤ tolerance then
      familyScanAux orientations tolerance js (j :: visited) (current_family ++ [j])
    else familyScanAux orientations tolerance js visited current_family

/-- The outer loop of `identify_families`, but recording every candidate group
(whether or not it reaches `min_members`).  The visited set — and hence the
sequence of candidates — does not depend on `min_members`. -/
def candidateScan (orientations : List ℚ) (tolerance : ℚ) :
    List ℕ → List ℕ → List (List ℕ)
  | [], _ => []
  | i :: is, visited =>
    if i ∈ visited then candidateScan orientations tolerance is visited
    else
      let r := familyScanAux orientations tolerance
        (List.range' (i + 1) (orientations.length - (i + 1))) (i :: visited) [i]
      r.1 :: candidateScan orientations tolerance is r.2

/-- The outer loop of `identify_families` as written: a candidate group is
emitted only when its size reaches `min_members`; its members stay visited
either way. -/
def identifyFamiliesAux (orientations : List ℚ) (tolerance : ℚ) (min_members : ℕ) :
    List ℕ → List ℕ → List (List ℕ)
  | [], _ => []
  | i :: is, visited =>
    if i ∈ visited then identifyFamiliesAux orientations tolerance min_members is visited
    else
      let r := familyScanAux orientations tolerance
        (List.range' (i + 1) (orientations.length - (i + 1))) (i :: visited) [i]
      if min_members ≤ r.1.length then
        r.1 :: identifyFamiliesAux orientations tolerance min_members is r.2
      else identifyFamiliesAux orientations tolerance min_members is r.2

/-- `identify_families(orientations, tolerance, min_members)`: greedy
single-pass clustering of orientations into families of indices. -/
def identify_families (orientations : List ℚ) (tolerance : ℚ) (min_members : ℕ) :
    List (List ℕ) :=
  identifyFamiliesAux orientations tolerance min_members
    (List.range orientations.length) []

/-- All candidate groups formed during a run of `identify_families`. -/
def candidate_groups (orientations : List ℚ) (tolerance : ℚ) : List (List ℕ) :=
  candidateScan orientations tolerance (List.range orientations.length) []

/-- A sample row with all condition codes 1 (and groundwater 1) at the given
traverse distance. -/
def sampleRecord (d : ℚ) : DiscontinuityRecord :=
  { Distance_m := d
    Dip_Direction_degrees := none
    Spacing_mm := 1
    Persistence_m := 1
    Aperture_mm := 1
    Roughness := 1
    Weathering := 1
    Infilling_Type := 1
    Groundwater := 1 }

/-- A sample row differing from `sampleRecord 10` only in its groundwater code. -/
def gwRecord (g : ℚ) : DiscontinuityRecord :=
  { sampleRecord 10 with Groundwater := g }

/-- A sample row differing from `sampleRecord 10` only in its spacing code. -/
def spRecord (c : ℚ) : DiscontinuityRecord :=
  { sampleRecord 10 with Spacing_mm := c }

/-- C8: the circular angular distance is symmetric, and the distance from any
angle to itself is zero. -/
theorem calculate_angular_distance_symm_refl :
    (∀ a b : ℚ, calculate_angular_distance a b = calculate_angular_distance b a) ∧
    (∀ a : ℚ, calculate_angular_distance a a = 0) := by
  constructor
  · intro a b
    unfold calculate_angular_distance
    rw [abs_sub_comm]
  · intro a
    unfold calculate_angular_distance
    norm_num

/-- C7: `get_groundwater_rating` maps codes 1,2,3,4,5 to 15,10,7,4,0, and every
integer code off the table gets the default 7 rather than an error. -/
theorem get_groundwater_rating_spec :
    get_groundwater_rating 1 = 15 ∧ get_groundwater_rating 2 = 10 ∧
    get_groundwater_rating 3 = 7 ∧ get_groundwater_rating 4 = 4 ∧
    get_groundwater_rating 5 = 0 ∧
    ∀ code : ℤ, code ∉ ([1, 2, 3, 4, 5] : List ℤ) → get_groundwater_rating code = 7 := by
  refine ⟨rfl, rfl, rfl, rfl, rfl, ?_⟩
  intro code h
  simp only [List.mem_cons, List.not_mem_nil, or_false] at h
  push_neg at h
  obtain ⟨h1, h2, h3, h4, h5⟩ := h
  simp [get_groundwater_rating, h1, h2, h3, h4, h5]

/-- Witness for C7 at the out-of-table code 9. -/
theorem get_groundwater_rating_spec_witness :
    (9 : ℤ) ∉ ([1, 2, 3, 4, 5] : List ℤ) ∧ get_groundwater_rating 9 = 7 :=
  ⟨by decide, get_groundwater_rating_spec.2.2.2.2.2 9 (by decide)⟩

/-- C6: the estimated RQD always lies in `[0, 100]`, and is exactly 0 whenever
the traverse length is non-positive. -/
theorem calculate_rqd_from_frequency_bounds (count : ℕ) (length_m : ℚ) :
    0 ≤ calculate_rqd_from_frequency count length_m ∧
    calculate_rqd_from_frequency count length_m ≤ 100 ∧
    (length_m ≤ 0 → calculate_rqd_from_frequency count length_m = 0) := by
  unfold calculate_rqd_from_frequency
  split_ifs with h
  · norm_num
  · exact ⟨le_max_left _ _, max_le (by norm_num) (min_le_left _ _),
      fun hc => absurd hc h⟩

/-- Witness for C6 at `count = 3`, `length_m = 0`. -/
theorem calculate_rqd_from_frequency_bounds_witness :
    0 ≤ calculate_rqd_from_frequency 3 0 ∧ calculate_rqd_from_frequency 3 0 ≤ 100 ∧
    calculate_rqd_from_frequency 3 0 = 0 :=
  ⟨(calculate_rqd_from_frequency_bounds 3 0).1,
   (calculate_rqd_from_frequency_bounds 3 0).2.1,
   (calculate_rqd_from_frequency_bounds 3 0).2.2 (by norm_num)⟩

/-- C5: on orientations `[10, 12, 200]` with tolerance 15 and `min_members` 2,
`identify_families` returns exactly the one family `[0, 1]`, and index 2
belongs to no family. -/
theorem identify_families_scenario :
    identify_families [10, 12, 200] 15 2 = [[0, 1]] ∧
    (2 : ℕ) ∉ (identify_families [10, 12, 200] 15 2).flatten :=
  ⟨by with_unfolding_all rfl, of_decide_eq_true (by with_unfolding_all rfl)⟩

/-- C2 counterexample: on the two-row station with groundwater codes 1 and 2
(mean 1.5), the scorer truncates the mean to 1 and rates 15, while the rounded
mean is 2, whose rating is 10 — so the claimed equality fails. -/
theorem station_groundwater_round_cex :
    ([gwRecord 1, gwRecord 2] : List DiscontinuityRecord) ≠ [] ∧
    (calculate_station_rmr [gwRecord 1, gwRecord 2]).Ratings.Groundwater = 15 ∧
    get_groundwater_rating
      (round (listMean ([gwRecord 1, gwRecord 2].map (·.Groundwater)))) = 10 ∧
    (calculate_station_rmr [gwRecord 1, gwRecord 2]).Ratings.Groundwater ≠
      get_groundwater_rating
        (round (listMean ([gwRecord 1, gwRecord 2].map (·.Groundwater)))) := by
  refine ⟨by simp, ?_, ?_, ?_⟩
  · with_unfolding_all rfl
  · have h : listMean ([gwRecord 1, gwRecord 2].map (·.Groundwater)) = 3 / 2 := by
      with_unfolding_all rfl
    rw [h]
    norm_num [round_eq, get_groundwater_rating]
  · have h1 : (calculate_station_rmr [gwRecord 1, gwRecord 2]).Ratings.Groundwater = 15 := by
      with_unfolding_all rfl
    have h : listMean ([gwRecord 1, gwRecord 2].map (·.Groundwater)) = 3 / 2 := by
      with_unfolding_all rfl
    rw [h1, h]
    norm_num [round_eq, get_groundwater_rating]

/-- C2 (amended): the station scorer's groundwater component equals the exact
map applied to the mean groundwater code truncated toward zero (Python `int`),
which is the floor of the mean for nonnegative codes — not the rounded mean. -/
theorem station_groundwater_trunc (records : List DiscontinuityRecord)
    (hne : records ≠ []) (hnn : ∀ r ∈ records, 0 ≤ r.Groundwater) :
    (calculate_station_rmr records).Ratings.Groundwater
      = get_groundwater_rating ⌊listMean (records.map (·.Groundwater))⌋ := by
  have h0 : 0 ≤ listMean (records.map (·.Groundwater)) := by
    unfold listMean
    apply div_nonneg
    · apply List.sum_nonneg
      intro x hx
      obtain ⟨r, hr, rfl⟩ := List.mem_map.1 hx
      exact hnn r hr
    · positivity
  show get_groundwater_rating (pyInt (listMean (records.map (·.Groundwater)))) = _
  rw [pyInt, if_neg (not_lt.2 h0)]

/-- Witness for the amended C2 at the station with groundwater codes 1 and 2. -/
theorem station_groundwater_trunc_witness :
    ([gwRecord 1, gwRecord 2] : List DiscontinuityRecord) ≠ [] ∧
    (∀ r ∈ ([gwRecord 1, gwRecord 2] : List DiscontinuityRecord), 0 ≤ r.Groundwater) ∧
    (calculate_station_rmr [gwRecord 1, gwRecord 2]).Ratings.Groundwater
      = get_groundwater_rating ⌊listMean ([gwRecord 1, gwRecord 2].map (·.Groundwater))⌋ := by
  have hnn : ∀ r ∈ ([gwRecord 1, gwRecord 2] : List DiscontinuityRecord), 0 ≤ r.Groundwater := by
    intro r hr
    simp only [List.mem_cons, List.not_mem_nil, or_false] at hr
    rcases hr with rfl | rfl <;> norm_num [gwRecord, sampleRecord]
  exact ⟨by simp, hnn, station_groundwater_trunc _ (by simp) hnn⟩

/-- Mean of a constant column. -/
lemma listMean_const (l : List ℚ) (c : ℚ) (hne : l ≠ []) (h : ∀ x ∈ l, x = c) :
    listMean l = c := by
  have hlen : (l.length : ℚ) ≠ 0 := by
    simpa [List.length_eq_zero] using hne
  rw [listMean, List.sum_eq_card_nsmul l c h, nsmul_eq_mul]
  exact mul_div_cancel_left₀ c hlen

/-- `filterMap` by a function that hits `some v` on every element. -/
lemma filterMap_const_some {α β : Type} (l : List α) (f : α → Option β) (v : β)
    (h : ∀ x ∈ l, f x = some v) : l.filterMap f = l.map (fun _ => v) := by
  induction l with
  | nil => rfl
  | cons a t ih =>
    rw [List.filterMap_cons, h a (List.mem_cons_self a t), List.map_cons,
      ih (fun x hx => h x (List.mem_cons_of_mem a hx))]

/-- When every member of a family shares one in-table spacing code, the family
scorer's spacing component agrees with the station scorer's. -/
lemma station_family_spacing_same_code (l : List DiscontinuityRecord) (L c v : ℚ)
    (hne : l ≠ []) (hconv : spacing_conversion c = some v)
    (hpy : ((pyInt c : ℤ) : ℚ) = c)
    (hall : ∀ r ∈ l, r.Spacing_mm = c) :
    (calculate_family_rmr (analyze_family_properties l) L).ratings.spacing
      = (calculate_station_rmr l).Ratings.Spacing := by
  have hmapne : l.map (·.Spacing_mm) ≠ [] := by
    simpa [List.map_eq_nil_iff] using hne
  have hmapne' : l.map (fun _ : DiscontinuityRecord => v) ≠ [] := by
    simpa [List.map_eq_nil_iff] using hne
  have hmean : listMean (l.map (·.Spacing_mm)) = c := by
    apply listMean_const _ c hmapne
    intro x hx
    obtain ⟨r, hr, rfl⟩ := List.mem_map.1 hx
    exact hall r hr
  have hfm : l.filterMap (fun r => spacing_conversion r.Spacing_mm)
      = l.map (fun _ => v) :=
    filterMap_const_some _ _ _ (fun r hr => by rw [hall r hr]; exact hconv)
  have hmv : listMean (l.map (fun _ : DiscontinuityRecord => v)) = v :=
    listMean_const _ v hmapne' (by simp)
  show get_spacing_rating
      ((spacing_conversion ((pyInt (listMean (l.map (·.Spacing_mm))) : ℤ) : ℚ)).getD 130)
    = get_spacing_rating
      (listMean (l.filterMap (fun r => spacing_conversion r.Spacing_mm)))
  rw [hmean, hpy, hconv, hfm, hmv, Option.getD_some]

/-- C3 counterexample: the two-member family with spacing codes 1 and 5.  The
family scorer truncates the mean code (3) and rates the looked-up 130 mm as 8,
while the station scorer averages the converted millimeter values
((10+800)/2 = 405 mm) and rates 10 — so the claimed reuse fails. -/
theorem family_spacing_cex :
    ([spRecord 1, spRecord 5] : List DiscontinuityRecord) ≠ [] ∧
    (∀ r ∈ ([spRecord 1, spRecord 5] : List DiscontinuityRecord),
      r.Spacing_mm ∈ ([1, 2, 3, 4, 5] : List ℚ)) ∧
    (calculate_family_rmr (analyze_family_properties [spRecord 1, spRecord 5]) 10).ratings.spacing = 8 ∧
    (calculate_station_rmr [spRecord 1, spRecord 5]).Ratings.Spacing = 10 ∧
    (calculate_family_rmr (analyze_family_properties [spRecord 1, spRecord 5]) 10).ratings.spacing ≠
      (calculate_station_rmr [spRecord 1, spRecord 5]).Ratings.Spacing := by
  have h8 : (calculate_family_rmr (analyze_family_properties [spRecord 1, spRecord 5]) 10).ratings.spacing = 8 := by
    with_unfolding_all rfl
  have h10 : (calculate_station_rmr [spRecord 1, spRecord 5]).Ratings.Spacing = 10 := by
    with_unfolding_all rfl
  refine ⟨by simp, ?_, h8, h10, ?_⟩
  · intro r hr
    simp only [List.mem_cons, List.not_mem_nil, or_false] at hr
    rcases hr with rfl | rfl <;> norm_num [spRecord, sampleRecord]
  · rw [h8, h10]
    norm_num

/-- C3 (amended): the family scorer does not average per-member millimeter
values.  Its spacing component is the spacing band of
`spacing_conversion.get(int(mean spacing code), 130)` — the table value of the
truncated mean code.  This agrees with the station scorer's spacing component
whenever all members of the family share one spacing code in 1–5, but not in
general. -/
theorem family_spacing_amended :
    (∀ (props : FamilyProperties) (L : ℚ),
      (calculate_family_rmr props L).ratings.spacing
        = get_spacing_rating
            ((spacing_conversion ((pyInt props.Spacing_code_mean : ℤ) : ℚ)).getD 130)) ∧
    (∀ (l : List DiscontinuityRecord) (L c : ℚ), l ≠ [] →
      c ∈ ([1, 2, 3, 4, 5] : List ℚ) → (∀ r ∈ l, r.Spacing_mm = c) →
      (calculate_family_rmr (analyze_family_properties l) L).ratings.spacing
        = (calculate_station_rmr l).Ratings.Spacing) := by
  constructor
  · intro props L
    rfl
  · intro l L c hne hc hall
    simp only [List.mem_cons, List.not_mem_nil, or_false] at hc
    rcases hc with rfl | rfl | rfl | rfl | rfl
    · exact station_family_spacing_same_code l L 1 10 hne (by norm_num [spacing_conversion])
        (by norm_num [pyInt]) hall
    · exact station_family_spacing_same_code l L 2 40 hne (by norm_num [spacing_conversion])
        (by norm_num [pyInt]) hall
    · exact station_family_spacing_same_code l L 3 130 hne (by norm_num [spacing_conversion])
        (by norm_num [pyInt]) hall
    · exact station_family_spacing_same_code l L 4 400 hne (by norm_num [spacing_conversion])
        (by norm_num [pyInt]) hall
    · exact station_family_spacing_same_code l L 5 800 hne (by norm_num [spacing_conversion])
        (by norm_num [pyInt]) hall

/-- Witness for the amended C3 on a family whose two members both carry spacing
code 2. -/
theorem family_spacing_amended_witness :
    ([spRecord 2, spRecord 2] : List DiscontinuityRecord) ≠ [] ∧
    (2 : ℚ) ∈ ([1, 2, 3, 4, 5] : List ℚ) ∧
    (∀ r ∈ ([spRecord 2, spRecord 2] : List DiscontinuityRecord), r.Spacing_mm = 2) ∧
    (calculate_family_rmr (analyze_family_properties [spRecord 2, spRecord 2]) 10).ratings.spacing
      = (calculate_station_rmr [spRecord 2, spRecord 2]).Ratings.Spacing := by
  have hall : ∀ r ∈ ([spRecord 2, spRecord 2] : List DiscontinuityRecord), r.Spacing_mm = 2 := by
    intro r hr
    simp only [List.mem_cons, List.not_mem_nil, or_false] at hr
    rcases hr with rfl | rfl <;> norm_num [spRecord, sampleRecord]
  exact ⟨by simp, by norm_num, hall,
    family_spacing_amended.2 [spRecord 2, spRecord 2] 10 2 (by simp) (by norm_num) hall⟩

/-- The three-row station of the spec's scenario: all condition codes 1,
groundwater 1, at the given traverse distances. -/
def scenarioRecords (d1 d2 d3 : ℚ) : List DiscontinuityRecord :=
  [sampleRecord d1, sampleRecord d2, sampleRecord d3]

/-- The RQD estimate for 3 discontinuities over 10 m is exactly
`100·e^(−0.03)·1.03` (neither clamp bites). -/
lemma rqd_three_over_ten :
    calculate_rqd_from_frequency 3 10 = 100 * Real.exp (-(3 / 100)) * (103 / 100) := by
  unfold calculate_rqd_from_frequency
  rw [if_neg (by norm_num)]
  have harg : (-0.1 : ℝ) * (((3 : ℕ) : ℝ) / ((10 : ℚ) : ℝ)) = -(3 / 100) := by
    push_cast
    norm_num
  have harg2 : (0.1 : ℝ) * (((3 : ℕ) : ℝ) / ((10 : ℚ) : ℝ)) + 1 = 103 / 100 := by
    push_cast
    norm_num
  rw [harg, harg2]
  have hE : (0 : ℝ) < Real.exp (3 / 100) := Real.exp_pos _
  have h103 : (103 : ℝ) / 100 ≤ Real.exp (3 / 100) := by
    have := Real.add_one_le_exp ((3 : ℝ) / 100)
    linarith
  have hle : 100 * Real.exp (-(3 / 100)) * (103 / 100) ≤ 100 := by
    rw [Real.exp_neg]
    rw [show (100 : ℝ) * (Real.exp (3 / 100))⁻¹ * (103 / 100) = 103 / Real.exp (3 / 100) by
      field_simp
      ring]
    rw [div_le_iff₀ hE]
    linarith
  have hge : (0 : ℝ) ≤ 100 * Real.exp (-(3 / 100)) * (103 / 100) := by
    positivity
  rw [min_eq_right hle, max_eq_right hge]

/-- That RQD estimate is at least 90 (it is about 99.91). -/
lemma rqd_three_over_ten_ge :
    (90 : ℝ) ≤ 100 * Real.exp (-(3 / 100)) * (103 / 100) := by
  have h97 : (97 : ℝ) / 100 ≤ Real.exp (-(3 / 100)) := by
    have := Real.add_one_le_exp (-(3 / 100) : ℝ)
    linarith
  nlinarith [h97]

/-- Unfolding of `calculate_station_rmr` into its explicit result record. -/
lemma calculate_station_rmr_def (records : List DiscontinuityRecord) :
    calculate_station_rmr records =
      { RMR_Total := (7 : ℚ)
          + (get_rqd_rating (calculate_rqd_from_frequency records.length
              (listMax (records.map (·.Distance_m)))) : ℚ)
          + (get_spacing_rating (listMean (records.filterMap
              (fun r => spacing_conversion r.Spacing_mm))) : ℚ)
          + get_discontinuity_condition_rating
              (listMean (records.map (·.Aperture_mm)))
              (listMean (records.map (·.Roughness)))
              (listMean (records.map (·.Weathering)))
              (listMean (records.map (·.Infilling_Type)))
          + (get_groundwater_rating (pyInt (listMean (records.map (·.Groundwater)))) : ℚ)
          + ((-5 : ℤ) : ℚ)
        Classification := classify_rmr ((7 : ℚ)
          + (get_rqd_rating (calculate_rqd_from_frequency records.length
              (listMax (records.map (·.Distance_m)))) : ℚ)
          + (get_spacing_rating (listMean (records.filterMap
              (fun r => spacing_conversion r.Spacing_mm))) : ℚ)
          + get_discontinuity_condition_rating
              (listMean (records.map (·.Aperture_mm)))
              (listMean (records.map (·.Roughness)))
              (listMean (records.map (·.Weathering)))
              (listMean (records.map (·.Infilling_Type)))
          + (get_groundwater_rating (pyInt (listMean (records.map (·.Groundwater)))) : ℚ)
          + ((-5 : ℤ) : ℚ))
        RQD := calculate_rqd_from_frequency records.length
          (listMax (records.map (·.Distance_m)))
        Spacing_mm := listMean (records.filterMap (fun r => spacing_conversion r.Spacing_mm))
        Num_Discontinuities := records.length
        Total_Length := listMax (records.map (·.Distance_m))
        Ratings :=
          { Strength := 7
            RQD := get_rqd_rating (calculate_rqd_from_frequency records.length
              (listMax (records.map (·.Distance_m))))
            Spacing := get_spacing_rating (listMean (records.filterMap
              (fun r => spacing_conversion r.Spacing_mm)))
            Conditions := get_discontinuity_condition_rating
              (listMean (records.map (·.Aperture_mm)))
              (listMean (records.map (·.Roughness)))
              (listMean (records.map (·.Weathering)))
              (listMean (records.map (·.Infilling_Type)))
            Groundwater := get_groundwater_rating
              (pyInt (listMean (records.map (·.Groundwater))))
            Orientation := -5 } } := rfl

/-- C1: for the spec's scenario station — three rows, maximum distance 10, all
condition codes 1 and groundwater code 1 — the scorer returns estimated RQD
`100·e^(−0.03)·1.03`, RQD rating 20, spacing rating 5 on a 10 mm mean, condition
rating 30, groundwater rating 15, strength 7, orientation −5, total 72, and
class II ("Buena"). -/
theorem calculate_station_rmr_scenario (d1 d2 d3 : ℚ)
    (hmax : listMax [d1, d2, d3] = 10) :
    (calculate_station_rmr (scenarioRecords d1 d2 d3)).RQD
      = 100 * Real.exp (-(3 / 100)) * (103 / 100) ∧
    (calculate_station_rmr (scenarioRecords d1 d2 d3)).Ratings.RQD = 20 ∧
    (calculate_station_rmr (scenarioRecords d1 d2 d3)).Ratings.Spacing = 5 ∧
    (calculate_station_rmr (scenarioRecords d1 d2 d3)).Spacing_mm = 10 ∧
    (calculate_station_rmr (scenarioRecords d1 d2 d3)).Ratings.Conditions = 30 ∧
    (calculate_station_rmr (scenarioRecords d1 d2 d3)).Ratings.Groundwater = 15 ∧
    (calculate_station_rmr (scenarioRecords d1 d2 d3)).Ratings.Strength = 7 ∧
    (calculate_station_rmr (scenarioRecords d1 d2 d3)).Ratings.Orientation = -5 ∧
    (calculate_station_rmr (scenarioRecords d1 d2 d3)).RMR_Total = 72 ∧
    (calculate_station_rmr (scenarioRecords d1 d2 d3)).Classification
      = "Clase II - Buena" := by
  have hlen : (scenarioRecords d1 d2 d3).length = 3 := rfl
  have hmap : (scenarioRecords d1 d2 d3).map (·.Distance_m) = [d1, d2, d3] := rfl
  have hrqd : calculate_rqd_from_frequency (scenarioRecords d1 d2 d3).length
      (listMax ((scenarioRecords d1 d2 d3).map (·.Distance_m)))
      = 100 * Real.exp (-(3 / 100)) * (103 / 100) := by
    rw [hlen, hmap, hmax, rqd_three_over_ten]
  have hrating : get_rqd_rating (calculate_rqd_from_frequency (scenarioRecords d1 d2 d3).length
      (listMax ((scenarioRecords d1 d2 d3).map (·.Distance_m)))) = 20 := by
    rw [hrqd]
    unfold get_rqd_rating
    rw [if_pos rqd_three_over_ten_ge]
  have hfm : (scenarioRecords d1 d2 d3).filterMap (fun r => spacing_conversion r.Spacing_mm)
      = [10, 10, 10] := rfl
  have hmapA : (scenarioRecords d1 d2 d3).map (·.Aperture_mm) = [1, 1, 1] := rfl
  have hmapR : (scenarioRecords d1 d2 d3).map (·.Roughness) = [1, 1, 1] := rfl
  have hmapW : (scenarioRecords d1 d2 d3).map (·.Weathering) = [1, 1, 1] := rfl
  have hmapI : (scenarioRecords d1 d2 d3).map (·.Infilling_Type) = [1, 1, 1] := rfl
  have hmapG : (scenarioRecords d1 d2 d3).map (·.Groundwater) = [1, 1, 1] := rfl
  have hm10 : listMean [10, 10, 10] = 10 := by with_unfolding_all rfl
  have hm1 : listMean [(1 : ℚ), 1, 1] = 1 := by with_unfolding_all rfl
  have hspmm : listMean ((scenarioRecords d1 d2 d3).filterMap
      (fun r => spacing_conversion r.Spacing_mm)) = 10 := by
    rw [hfm, hm10]
  have hspacing : get_spacing_rating (listMean ((scenarioRecords d1 d2 d3).filterMap
      (fun r => spacing_conversion r.Spacing_mm))) = 5 := by
    rw [hspmm]
    with_unfolding_all rfl
  have hcond : get_discontinuity_condition_rating
      (listMean ((scenarioRecords d1 d2 d3).map (·.Aperture_mm)))
      (listMean ((scenarioRecords d1 d2 d3).map (·.Roughness)))
      (listMean ((scenarioRecords d1 d2 d3).map (·.Weathering)))
      (listMean ((scenarioRecords d1 d2 d3).map (·.Infilling_Type))) = 30 := by
    rw [hmapA, hmapR, hmapW, hmapI, hm1]
    with_unfolding_all rfl
  have hgw : get_groundwater_rating
      (pyInt (listMean ((scenarioRecords d1 d2 d3).map (·.Groundwater)))) = 15 := by
    rw [hmapG, hm1]
    with_unfolding_all rfl
  rw [calculate_station_rmr_def]
  refine ⟨hrqd, hrating, hspacing, hspmm, hcond, hgw, rfl, rfl, ?_, ?_⟩
  · rw [hrating, hspacing, hcond, hgw]
    norm_num
  · rw [hrating, hspacing, hcond, hgw]
    norm_num [classify_rmr]

/-- Witness for C1 at distances 3, 7, 10. -/
theorem calculate_station_rmr_scenario_witness :
    listMax [3, 7, 10] = 10 ∧
    (calculate_station_rmr (scenarioRecords 3 7 10)).RMR_Total = 72 ∧
    (calculate_station_rmr (scenarioRecords 3 7 10)).Classification
      = "Clase II - Buena" := by
  have hmax : listMax [(3 : ℚ), 7, 10] = 10 := by with_unfolding_all rfl
  exact ⟨hmax, (calculate_station_rmr_scenario 3 7 10 hmax).2.2.2.2.2.2.2.2.1,
    (calculate_station_rmr_scenario 3 7 10 hmax).2.2.2.2.2.2.2.2.2⟩

/-- The RQD rating can only be 3, 8, 13, 17 or 20. -/
lemma get_rqd_rating_mem (x : ℝ) :
    get_rqd_rating x ∈ ([3, 8, 13, 17, 20] : List ℕ) := by
  unfold get_rqd_rating
  split_ifs <;> simp

/-- The spacing rating can only be 5, 8, 10, 15 or 20. -/
lemma get_spacing_rating_mem (x : ℚ) :
    get_spacing_rating x ∈ ([5, 8, 10, 15, 20] : List ℕ) := by
  unfold get_spacing_rating
  split_ifs <;> simp

/-- The groundwater rating can only be 0, 4, 7, 10 or 15. -/
lemma get_groundwater_rating_mem (c : ℤ) :
    get_groundwater_rating c ∈ ([0, 4, 7, 10, 15] : List ℕ) := by
  unfold get_groundwater_rating
  split_ifs <;> simp

/-- The condition rating is clamped into `[0, 30]`. -/
lemma get_discontinuity_condition_rating_bounds (a b c d : ℚ) :
    0 ≤ get_discontinuity_condition_rating a b c d ∧
    get_discontinuity_condition_rating a b c d ≤ 30 :=
  ⟨le_max_left _ _, max_le (by norm_num) (min_le_left _ _)⟩

/-- C9: for every non-empty record set the station RMR total lies in
`[10, 87]`: strength is the constant 7, the RQD rating lies in
`{3,8,13,17,20}`, the spacing rating in `{5,8,10,15,20}`, the condition rating
in `[0,30]`, the groundwater rating in `{0,4,7,10,15}`, and the orientation
adjustment is the constant −5 — so the unclamped sum can neither go below 10
nor above 87 (in particular never negative, never above 100). -/
theorem calculate_station_rmr_total_bounds (records : List DiscontinuityRecord)
    (hne : records ≠ []) :
    (10 ≤ (calculate_station_rmr records).RMR_Total ∧
      (calculate_station_rmr records).RMR_Total ≤ 87) ∧
    (calculate_station_rmr records).Ratings.Strength = 7 ∧
    (calculate_station_rmr records).Ratings.RQD ∈ ([3, 8, 13, 17, 20] : List ℕ) ∧
    (calculate_station_rmr records).Ratings.Spacing ∈ ([5, 8, 10, 15, 20] : List ℕ) ∧
    (0 ≤ (calculate_station_rmr records).Ratings.Conditions ∧
      (calculate_station_rmr records).Ratings.Conditions ≤ 30) ∧
    (calculate_station_rmr records).Ratings.Groundwater ∈ ([0, 4, 7, 10, 15] : List ℕ) ∧
    (calculate_station_rmr records).Ratings.Orientation = -5 := by
  rw [calculate_station_rmr_def]
  have hrqd := get_rqd_rating_mem (calculate_rqd_from_frequency records.length
    (listMax (records.map (·.Distance_m))))
  have hsp := get_spacing_rating_mem (listMean (records.filterMap
    (fun r => spacing_conversion r.Spacing_mm)))
  have hgw := get_groundwater_rating_mem (pyInt (listMean (records.map (·.Groundwater))))
  have hcond := get_discontinuity_condition_rating_bounds
    (listMean (records.map (·.Aperture_mm)))
    (listMean (records.map (·.Roughness)))
    (listMean (records.map (·.Weathering)))
    (listMean (records.map (·.Infilling_Type)))
  refine ⟨⟨?_, ?_⟩, rfl, hrqd, hsp, hcond, hgw, rfl⟩ <;>
  · simp only [List.mem_cons, List.not_mem_nil, or_false] at hrqd hsp hgw
    have h1 : (3 : ℚ) ≤ (get_rqd_rating (calculate_rqd_from_frequency records.length
        (listMax (records.map (·.Distance_m)))) : ℚ) ∧
        (get_rqd_rating (calculate_rqd_from_frequency records.length
        (listMax (records.map (·.Distance_m)))) : ℚ) ≤ 20 := by
      rcases hrqd with h | h | h | h | h <;> rw [h] <;> norm_num
    have h2 : (5 : ℚ) ≤ (get_spacing_rating (listMean (records.filterMap
        (fun r => spacing_conversion r.Spacing_mm))) : ℚ) ∧
        (get_spacing_rating (listMean (records.filterMap
        (fun r => spacing_conversion r.Spacing_mm))) : ℚ) ≤ 20 := by
      rcases hsp with h | h | h | h | h <;> rw [h] <;> norm_num
    have h3 : (0 : ℚ) ≤ (get_groundwater_rating (pyInt (listMean
        (records.map (·.Groundwater)))) : ℚ) ∧
        (get_groundwater_rating (pyInt (listMean
        (records.map (·.Groundwater)))) : ℚ) ≤ 15 := by
      rcases hgw with h | h | h | h | h <;> rw [h] <;> norm_num
    push_cast
    obtain ⟨h1a, h1b⟩ := h1
    obtain ⟨h2a, h2b⟩ := h2
    obtain ⟨h3a, h3b⟩ := h3
    obtain ⟨h4a, h4b⟩ := hcond
    push_cast at h1a h1b h2a h2b h3a h3b
    linarith

/-- Witness for C9 on the one-row station `[sampleRecord 10]`. -/
theorem calculate_station_rmr_total_bounds_witness :
    ([sampleRecord 10] : List DiscontinuityRecord) ≠ [] ∧
    (10 ≤ (calculate_station_rmr [sampleRecord 10]).RMR_Total ∧
      (calculate_station_rmr [sampleRecord 10]).RMR_Total ≤ 87) :=
  ⟨by simp, (calculate_station_rmr_total_bounds [sampleRecord 10] (by simp)).1⟩

/-- The inner scan only ever grows the visited set. -/
lemma familyScanAux_visited_mono (o : List ℚ) (t : ℚ) :
    ∀ (js vis fam : List ℕ) (x : ℕ), x ∈ vis → x ∈ (familyScanAux o t js vis fam).2 := by
  intro js
  induction js with
  | nil => intro vis fam x hx; simpa [familyScanAux] using hx
  | cons j js ih =>
    intro vis fam x hx
    simp only [familyScanAux]
    split_ifs with h1 h2
    · exact ih vis fam x hx
    · exact ih (j :: vis) (fam ++ [j]) x (List.mem_cons_of_mem j hx)
    · exact ih vis fam x hx

/-- The inner scan extends the current family by indices drawn from the
scanned suffix that were unvisited at call time. -/
lemma familyScanAux_fam (o : List ℚ) (t : ℚ) :
    ∀ (js vis fam : List ℕ), ∃ ext, (familyScanAux o t js vis fam).1 = fam ++ ext ∧
      ∀ x ∈ ext, x ∈ js ∧ x ∉ vis := by
  intro js
  induction js with
  | nil =>
    intro vis fam
    exact ⟨[], by simp [familyScanAux], by simp⟩
  | cons j js ih =>
    intro vis fam
    simp only [familyScanAux]
    split_ifs with h1 h2
    · obtain ⟨ext, he, hp⟩ := ih vis fam
      exact ⟨ext, he, fun x hx => ⟨List.mem_cons_of_mem j (hp x hx).1, (hp x hx).2⟩⟩
    · obtain ⟨ext, he, hp⟩ := ih (j :: vis) (fam ++ [j])
      refine ⟨j :: ext, by simpa using he, ?_⟩
      intro x hx
      rcases List.mem_cons.1 hx with rfl | hx'
      · exact ⟨List.mem_cons_self _ _, h1⟩
      · refine ⟨List.mem_cons_of_mem j (hp x hx').1, fun hv => (hp x hx').2 (List.mem_cons_of_mem j hv)⟩
    · obtain ⟨ext, he, hp⟩ := ih vis fam
      exact ⟨ext, he, fun x hx => ⟨List.mem_cons_of_mem j (hp x hx).1, (hp x hx).2⟩⟩

/-- If the current family is inside the visited set, the finished family is
inside the finished visited set. -/
lemma familyScanAux_fam_sub_visited (o : List ℚ) (t : ℚ) :
    ∀ (js vis fam : List ℕ), (∀ x ∈ fam, x ∈ vis) →
      ∀ x ∈ (familyScanAux o t js vis fam).1, x ∈ (familyScanAux o t js vis fam).2 := by
  intro js
  induction js with
  | nil =>
    intro vis fam hsub x hx
    simp only [familyScanAux] at hx ⊢
    exact hsub x hx
  | cons j js ih =>
    intro vis fam hsub x hx
    simp only [familyScanAux] at hx ⊢
    split_ifs at hx ⊢ with h1 h2
    · exact ih vis fam hsub x hx
    · refine ih (j :: vis) (fam ++ [j]) ?_ x hx
      intro y hy
      rcases List.mem_append.1 hy with hy' | hy'
      · exact List.mem_cons_of_mem j (hsub y hy')
      · simp only [List.mem_singleton] at hy'
        exact hy' ▸ List.mem_cons_self j vis
    · exact ih vis fam hsub x hx

/-- The finished family has no duplicate indices. -/
lemma familyScanAux_nodup (o : List ℚ) (t : ℚ) :
    ∀ (js vis fam : List ℕ), (∀ x ∈ fam, x ∈ vis) → fam.Nodup →
      (familyScanAux o t js vis fam).1.Nodup := by
  intro js
  induction js with
  | nil =>
    intro vis fam _ hnd
    simpa [familyScanAux] using hnd
  | cons j js ih =>
    intro vis fam hsub hnd
    simp only [familyScanAux]
    split_ifs with h1 h2
    · exact ih vis fam hsub hnd
    · refine ih (j :: vis) (fam ++ [j]) ?_ ?_
      · intro y hy
        rcases List.mem_append.1 hy with hy' | hy'
        · exact List.mem_cons_of_mem j (hsub y hy')
        · simp only [List.mem_singleton] at hy'
          exact hy' ▸ List.mem_cons_self j vis
      · rw [List.nodup_append]
        refine ⟨hnd, List.nodup_singleton j, ?_⟩
        intro a ha hax
        simp only [List.mem_singleton] at hax
        exact h1 (hax ▸ hsub a ha)
    · exact ih vis fam hsub hnd

/-- The finished family is strictly increasing when the current family is,
the scanned suffix is, and the family precedes the suffix. -/
lemma familyScanAux_sorted (o : List ℚ) (t : ℚ) :
    ∀ (js vis fam : List ℕ), List.Pairwise (· < ·) js → List.Pairwise (· < ·) fam →
      (∀ x ∈ fam, ∀ j ∈ js, x < j) →
      List.Pairwise (· < ·) (familyScanAux o t js vis fam).1 := by
  intro js
  induction js with
  | nil =>
    intro vis fam _ hfam _
    simpa [familyScanAux] using hfam
  | cons j js ih =>
    intro vis fam hjs hfam hlt
    have hjs' : List.Pairwise (· < ·) js := (List.pairwise_cons.1 hjs).2
    have hjlt : ∀ y ∈ js, j < y := (List.pairwise_cons.1 hjs).1
    simp only [familyScanAux]
    split_ifs with h1 h2
    · exact ih vis fam hjs' hfam (fun x hx y hy => hlt x hx y (List.mem_cons_of_mem j hy))
    · refine ih (j :: vis) (fam ++ [j]) hjs' ?_ ?_
      · rw [List.pairwise_append]
        exact ⟨hfam, List.pairwise_singleton _ j,
          fun x hx y hy => by
            simp only [List.mem_singleton] at hy
            exact hy ▸ hlt x hx j (List.mem_cons_self j js)⟩
      · intro x hx y hy
        rcases List.mem_append.1 hx with hx' | hx'
        · exact hlt x hx' y (List.mem_cons_of_mem j hy)
        · simp only [List.mem_singleton] at hx'
          exact hx' ▸ hjlt y hy
    · exact ih vis fam hjs' hfam (fun x hx y hy => hlt x hx y (List.mem_cons_of_mem j hy))

/-- No candidate group of the scan touches the visited set it started from. -/
lemma candidateScan_avoid (o : List ℚ) (t : ℚ) :
    ∀ (is vis : List ℕ), ∀ c ∈ candidateScan o t is vis, ∀ x ∈ c, x ∉ vis := by
  intro is
  induction is with
  | nil => intro vis c hc; simp [candidateScan] at hc
  | cons i is ih =>
    intro vis c hc x hx
    simp only [candidateScan] at hc
    split_ifs at hc with h1
    · exact ih vis c hc x hx
    · rcases List.mem_cons.1 hc with rfl | hc'
      · obtain ⟨ext, he, hp⟩ := familyScanAux_fam o t
          (List.range' (i + 1) (o.length - (i + 1))) (i :: vis) [i]
        rw [he] at hx
        rcases List.mem_append.1 hx with hx' | hx'
        · simp only [List.mem_singleton] at hx'
          exact fun hv => h1 (hx' ▸ hv)
        · exact fun hv => (hp x hx').2 (List.mem_cons_of_mem i hv)
      · intro hv
        have hv2 : x ∈ (familyScanAux o t
            (List.range' (i + 1) (o.length - (i + 1))) (i :: vis) [i]).2 :=
          familyScanAux_visited_mono o t _ _ _ x (List.mem_cons_of_mem i hv)
        exact ih _ c hc' x hx hv2

/-- The candidate groups of one scan are pairwise disjoint. -/
lemma candidateScan_pairwise (o : List ℚ) (t : ℚ) :
    ∀ (is vis : List ℕ),
      List.Pairwise (fun c d => ∀ x ∈ c, x ∉ d) (candidateScan o t is vis) := by
  intro is
  induction is with
  | nil => intro vis; simp [candidateScan]
  | cons i is ih =>
    intro vis
    simp only [candidateScan]
    split_ifs with h1
    · exact ih vis
    · refine List.pairwise_cons.2 ⟨?_, ih _⟩
      intro d hd x hx
      have hxv : x ∈ (familyScanAux o t
          (List.range' (i + 1) (o.length - (i + 1))) (i :: vis) [i]).2 :=
        familyScanAux_fam_sub_visited o t _ _ _
          (by intro y hy; simp only [List.mem_singleton] at hy; exact hy ▸ List.mem_cons_self i vis)
          x hx
      exact fun hxd => candidateScan_avoid o t is _ d hd x hxd hxv

/-- Every candidate group is a cons of its seed (which is drawn from the index
list) onto later members. -/
lemma candidateScan_shape (o : List ℚ) (t : ℚ) :
    ∀ (is vis : List ℕ), ∀ c ∈ candidateScan o t is vis,
      ∃ i ext, c = i :: ext ∧ i ∈ is := by
  intro is
  induction is with
  | nil => intro vis c hc; simp [candidateScan] at hc
  | cons i is ih =>
    intro vis c hc
    simp only [candidateScan] at hc
    split_ifs at hc with h1
    · obtain ⟨i', ext, he, hm⟩ := ih vis c hc
      exact ⟨i', ext, he, List.mem_cons_of_mem i hm⟩
    · rcases List.mem_cons.1 hc with rfl | hc'
      · obtain ⟨ext, he, _⟩ := familyScanAux_fam o t
          (List.range' (i + 1) (o.length - (i + 1))) (i :: vis) [i]
        exact ⟨i, ext, by simpa using he, List.mem_cons_self i is⟩
      · obtain ⟨i', ext, he, hm⟩ := ih _ c hc'
        exact ⟨i', ext, he, List.mem_cons_of_mem i hm⟩

/-- Every candidate group is duplicate-free. -/
lemma candidateScan_nodup (o : List ℚ) (t : ℚ) :
    ∀ (is vis : List ℕ), ∀ c ∈ candidateScan o t is vis, c.Nodup := by
  intro is
  induction is with
  | nil => intro vis c hc; simp [candidateScan] at hc
  | cons i is ih =>
    intro vis c hc
    simp only [candidateScan] at hc
    split_ifs at hc with h1
    · exact ih vis c hc
    · rcases List.mem_cons.1 hc with rfl | hc'
      · exact familyScanAux_nodup o t _ _ _
          (by intro y hy; simp only [List.mem_singleton] at hy; exact hy ▸ List.mem_cons_self i vis)
          (List.nodup_singleton i)
      · exact ih _ c hc'

/-- Every candidate group is strictly increasing. -/
lemma candidateScan_sorted (o : List ℚ) (t : ℚ) :
    ∀ (is vis : List ℕ), ∀ c ∈ candidateScan o t is vis,
      List.Pairwise (· < ·) c := by
  intro is
  induction is with
  | nil => intro vis c hc; simp [candidateScan] at hc
  | cons i is ih =>
    intro vis c hc
    simp only [candidateScan] at hc
    split_ifs at hc with h1
    · exact ih vis c hc
    · rcases List.mem_cons.1 hc with rfl | hc'
      · refine familyScanAux_sorted o t _ _ _ (List.pairwise_lt_range' _ _)
          (List.pairwise_singleton _ i) ?_
        intro x hx j hj
        simp only [List.mem_singleton] at hx
        exact hx ▸ lt_of_lt_of_le (Nat.lt_succ_self i) (List.mem_range'_1.1 hj).1
      · exact ih _ c hc'

/-- The heads of the candidate groups are strictly increasing when the index
list is. -/
lemma candidateScan_heads (o : List ℚ) (t : ℚ) :
    ∀ (is vis : List ℕ), List.Pairwise (· < ·) is →
      List.Pairwise (fun c d => c.headD 0 < d.headD 0) (candidateScan o t is vis) := by
  intro is
  induction is with
  | nil => intro vis _; simp [candidateScan]
  | cons i is ih =>
    intro vis his
    have his' : List.Pairwise (· < ·) is := (List.pairwise_cons.1 his).2
    have hilt : ∀ y ∈ is, i < y := (List.pairwise_cons.1 his).1
    simp only [candidateScan]
    split_ifs with h1
    · exact ih vis his'
    · refine List.pairwise_cons.2 ⟨?_, ih _ his'⟩
      intro d hd
      obtain ⟨ext, he, _⟩ := familyScanAux_fam o t
        (List.range' (i + 1) (o.length - (i + 1))) (i :: vis) [i]
      obtain ⟨i', ext', hd', hm'⟩ := candidateScan_shape o t is _ d hd
      rw [he, hd']
      simpa using hilt i' hm'

/-- `identifyFamiliesAux` keeps exactly the candidate groups of size at least
`min_members`. -/
lemma identifyFamiliesAux_eq_filter (o : List ℚ) (t : ℚ) (m : ℕ) :
    ∀ (is vis : List ℕ), identifyFamiliesAux o t m is vis
      = (candidateScan o t is vis).filter (fun c => m ≤ c.length) := by
  intro is
  induction is with
  | nil => intro vis; simp [identifyFamiliesAux, candidateScan]
  | cons i is ih =>
    intro vis
    simp only [identifyFamiliesAux, candidateScan]
    split_ifs with h1 h2
    · exact ih vis
    · rw [List.filter_cons, if_pos (by simpa using h2), ih]
    · rw [List.filter_cons, if_neg (by simpa using h2), ih]

/-- `identify_families` keeps exactly the candidate groups of size at least
`min_members`, stated at the top level. -/
lemma identify_families_eq_filter (orientations : List ℚ) (tolerance : ℚ)
    (min_members : ℕ) :
    identify_families orientations tolerance min_members
      = (candidate_groups orientations tolerance).filter
          (fun c => min_members ≤ c.length) := by
  unfold identify_families candidate_groups
  exact identifyFamiliesAux_eq_filter _ _ _ _ _

/-- C4: for every orientation sequence, tolerance and `min_members`, the
emitted families are pairwise disjoint index groups of size at least
`min_members`; the function is deterministic (it is a pure function — two runs
on the same input are the same run); and every member of a candidate group that
was discarded for being too small stays visited and is never placed in any
emitted family. -/
theorem identify_families_invariants (orientations : List ℚ) (tolerance : ℚ)
    (min_members : ℕ) :
    List.Pairwise (fun c d => ∀ x ∈ c, x ∉ d)
      (identify_families orientations tolerance min_members) ∧
    (∀ f ∈ identify_families orientations tolerance min_members,
      min_members ≤ f.length) ∧
    identify_families orientations tolerance min_members
      = identify_families orientations tolerance min_members ∧
    (∀ c ∈ candidate_groups orientations tolerance, c.length < min_members →
      ∀ f ∈ identify_families orientations tolerance min_members,
        ∀ x ∈ c, x ∉ f) := by
  have heq := identify_families_eq_filter orientations tolerance min_members
  have hpw : List.Pairwise (fun c d => ∀ x ∈ c, x ∉ d)
      (candidate_groups orientations tolerance) :=
    candidateScan_pairwise orientations tolerance _ _
  refine ⟨?_, ?_, rfl, ?_⟩
  · rw [heq]
    exact hpw.sublist (List.filter_sublist _)
  · intro f hf
    rw [heq] at hf
    simpa using (List.mem_filter.1 hf).2
  · intro c hc hlen f hf x hxc hxf
    rw [heq] at hf
    have hfc : f ∈ candidate_groups orientations tolerance := (List.mem_filter.1 hf).1
    have hflen : min_members ≤ f.length := by simpa using (List.mem_filter.1 hf).2
    have hne : c ≠ f := by
      intro h
      rw [h] at hlen
      omega
    have hsymm : Symmetric (fun c d : List ℕ => ∀ x ∈ c, x ∉ d) := by
      intro a b hab y hyb hya
      exact hab y hya hyb
    exact hpw.forall hsymm hc hfc hne x hxc hxf

/-- Witness for C4 on orientations `[10, 12, 200]`, tolerance 15,
`min_members` 2: the discarded singleton candidate `[2]` never reaches the one
emitted family `[0, 1]`. -/
theorem identify_families_invariants_witness :
    ([2] : List ℕ) ∈ candidate_groups [10, 12, 200] 15 ∧
    ([2] : List ℕ).length < 2 ∧
    ([0, 1] : List ℕ) ∈ identify_families [10, 12, 200] 15 2 ∧
    (2 : ℕ) ∈ ([2] : List ℕ) ∧ (2 : ℕ) ∉ ([0, 1] : List ℕ) := by
  have hcand : candidate_groups [10, 12, 200] 15 = [[0, 1], [2]] := by
    with_unfolding_all rfl
  have hfam : identify_families [10, 12, 200] 15 2 = [[0, 1]] := by
    with_unfolding_all rfl
  have h1 : ([2] : List ℕ) ∈ candidate_groups [10, 12, 200] 15 := by
    rw [hcand]
    simp
  have h3 : ([0, 1] : List ℕ) ∈ identify_families [10, 12, 200] 15 2 := by
    rw [hfam]
    simp
  exact ⟨h1, by decide, h3, by decide,
    (identify_families_invariants [10, 12, 200] 15 2).2.2.2 [2] h1 (by decide)
      [0, 1] h3 2 (by decide)⟩

/-- C10: every emitted index group is strictly increasing (ascending input
order, starting at its seed), and the groups appear in strictly increasing
order of their first (seed) index. -/
theorem identify_families_ordered (orientations : List ℚ) (tolerance : ℚ)
    (min_members : ℕ) :
    (∀ f ∈ identify_families orientations tolerance min_members,
      f ≠ [] ∧ List.Pairwise (· < ·) f) ∧
    List.Pairwise (fun c d => c.headD 0 < d.headD 0)
      (identify_families orientations tolerance min_members) := by
  have heq := identify_families_eq_filter orientations tolerance min_members
  constructor
  · intro f hf
    rw [heq] at hf
    have hfc : f ∈ candidate_groups orientations tolerance := (List.mem_filter.1 hf).1
    obtain ⟨i, ext, hshape, _⟩ := candidateScan_shape orientations tolerance _ _ f hfc
    exact ⟨by simp [hshape], candidateScan_sorted orientations tolerance _ _ f hfc⟩
  · rw [heq]
    exact (candidateScan_heads orientations tolerance _ []
      (List.pairwise_lt_range _)).sublist (List.filter_sublist _)

/-- Witness for C10 on the emitted family `[0, 1]` of the
`[10, 12, 200]` run. -/
theorem identify_families_ordered_witness :
    ([0, 1] : List ℕ) ∈ identify_families [10, 12, 200] 15 2 ∧
    ([0, 1] : List ℕ) ≠ [] ∧ List.Pairwise (· < ·) ([0, 1] : List ℕ) := by
  have hfam : identify_families [10, 12, 200] 15 2 = [[0, 1]] := by
    with_unfolding_all rfl
  have h : ([0, 1] : List ℕ) ∈ identify_families [10, 12, 200] 15 2 := by
    rw [hfam]
    simp
  exact ⟨h, ((identify_families_ordered [10, 12, 200] 15 2).1 [0, 1] h).1,
    ((identify_families_ordered [10, 12, 200] 15 2).1 [0, 1] h).2⟩

end RMR
